import Mathlib

/-!
Verification development for the LatterThoughts proactive-agent repository.

The Python sources are shallowly embedded: pure functions become Lean
functions, stateful methods become explicit state passing, machine time is
an explicit `Nat` parameter, and every external capability (LLM text
generation, web search, message transport) is passed in as an explicit
oracle argument, mirroring the narrow request/response contracts the code
uses.  Text is modelled as `List Char` / `String`; `json.loads` is modelled
by a small executable JSON parser (`parseJson`) covering objects, arrays,
strings with the common escapes, integer/decimal numbers, and the literals
`true` / `false` / `null` (exponent notation and unicode escapes are out of
scope; no input considered here uses them).
-/

/-- Named backtick character (U+0060), used by the fenced-code-block
extraction in `inner_thoughts.py` and `response_classifier.py`. -/
def btChar : Char := Char.ofNat 96

/-- Named opening-brace character. -/
def lbrace : Char := Char.ofNat 123

/-- Named closing-brace character. -/
def rbrace : Char := Char.ofNat 125

/-- Named double-quote character. -/
def quoteChar : Char := Char.ofNat 34

/-- Named backslash character. -/
def backslashChar : Char := Char.ofNat 92

/-- The whitespace class of Python's `\s` and of `str.strip` /
`json.loads`, restricted to ASCII. -/
def pyIsSpace (c : Char) : Bool :=
  c = ' ' || c = Char.ofNat 9 || c = Char.ofNat 10 || c = Char.ofNat 13 ||
  c = Char.ofNat 11 || c = Char.ofNat 12

/-- Drop leading whitespace (Python `\s*` / `json.loads` leading skip). -/
def skipWs (l : List Char) : List Char := l.dropWhile pyIsSpace

/-- Drop trailing whitespace. -/
def dropTrailingWs (l : List Char) : List Char :=
  (l.reverse.dropWhile pyIsSpace).reverse

/-- Python `str.strip()`. -/
def pyStrip (s : String) : String :=
  String.mk (dropTrailingWs (skipWs s.data))

/-- Does `needle` occur at the start of `hay`? -/
def startsList : List Char → List Char → Bool
  | [], _ => true
  | _ :: _, [] => false
  | a :: as, b :: bs => a = b && startsList as bs

/-- Python's substring operator `needle in hay`. -/
def subList (needle : List Char) : List Char → Bool
  | [] => needle.isEmpty
  | c :: tl => startsList needle (c :: tl) || subList needle tl

/-- Python `sub in s` on strings. -/
def strIn (needle hay : String) : Bool := subList needle.data hay.data

/-- Split a list at the first occurrence of character `c`:
returns `(before, after)` with the occurrence removed.  Models
`str.find` plus slicing. -/
def splitAtFirst (c : Char) : List Char → Option (List Char × List Char)
  | [] => none
  | x :: xs =>
    if x = c then some ([], xs)
    else (fun p => (x :: p.1, p.2)) <$> splitAtFirst c xs

/-- JSON values as produced by `json.loads`.  Object member lists are kept
in first-insertion order with last-value-wins semantics (Python `dict`). -/
inductive Json where
  | null : Json
  | bool (b : Bool) : Json
  | num (q : ℚ) : Json
  | str (s : String) : Json
  | arr (xs : List Json) : Json
  | obj (kvs : List (String × Json)) : Json

/-- Python-`dict` insertion: overwrite the value in place if the key is
present, else append. -/
def dictInsert : List (String × Json) → String → Json → List (String × Json)
  | [], k, v => [(k, v)]
  | (k', v') :: rest, k, v =>
    if k' = k then (k, v) :: rest else (k', v') :: dictInsert rest k v

/-- Python `dict.get key`: first (unique) binding of `k`. -/
def jGet (kvs : List (String × Json)) (k : String) : Option Json :=
  (kvs.find? (fun p => p.1 = k)).map (fun p => p.2)

/-- Python truthiness of a decoded JSON value (`if not result`). -/
def pyTruthy : Json → Bool
  | .null => false
  | .bool b => b
  | .num q => decide (q ≠ 0)
  | .str s => !s.isEmpty
  | .arr xs => !xs.isEmpty
  | .obj kvs => !kvs.isEmpty

/-- Body of a JSON string after the opening quote, handling the one-character
escapes; returns the decoded characters and the remaining input. -/
def parseStrBody : Nat → List Char → Option (List Char × List Char)
  | 0, _ => none
  | _ + 1, [] => none
  | fuel + 1, c :: rest =>
    if c = quoteChar then some ([], rest)
    else if c = backslashChar then
      match rest with
      | [] => none
      | e :: rest2 =>
        let ec : Option Char :=
          if e = quoteChar then some quoteChar
          else if e = backslashChar then some backslashChar
          else if e = '/' then some '/'
          else if e = 'b' then some (Char.ofNat 8)
          else if e = 'f' then some (Char.ofNat 12)
          else if e = 'n' then some (Char.ofNat 10)
          else if e = 'r' then some (Char.ofNat 13)
          else if e = 't' then some (Char.ofNat 9)
          else none
        match ec with
        | some d => (fun p => (d :: p.1, p.2)) <$> parseStrBody fuel rest2
        | none => none
    else (fun p => (c :: p.1, p.2)) <$> parseStrBody fuel rest

/-- Digits to a natural number. -/
def digitsToNat (ds : List Char) : Nat :=
  ds.foldl (fun a c => a * 10 + (c.toNat - 48)) 0

/-- JSON number (optional sign, digits, optional fraction). -/
def parseNumber (l : List Char) : Option (ℚ × List Char) :=
  let neg : Bool := l.head? = some '-'
  let l1 := if neg then l.tail else l
  let ds := l1.takeWhile Char.isDigit
  let l2 := l1.dropWhile Char.isDigit
  if ds.isEmpty then none
  else
    let ip : ℚ := (digitsToNat ds : ℚ)
    match l2 with
    | '.' :: r =>
      let fs := r.takeWhile Char.isDigit
      let l3 := r.dropWhile Char.isDigit
      if fs.isEmpty then none
      else
        let v : ℚ := ip + (digitsToNat fs : ℚ) / ((10 : ℚ) ^ fs.length)
        some (if neg then -v else v, l3)
    | _ => some (if neg then -ip else ip, l2)

mutual

/-- One JSON value at the head of the input (whitespace already skipped). -/
def parseValue : Nat → List Char → Option (Json × List Char)
  | 0, _ => none
  | _ + 1, [] => none
  | fuel + 1, c :: rest =>
    if c = quoteChar then
      (fun p => (Json.str (String.mk p.1), p.2)) <$> parseStrBody (fuel + 1) rest
    else if c = lbrace then
      (fun p => (Json.obj (p.1.foldl (fun d kv => dictInsert d kv.1 kv.2) []), p.2)) <$>
        parseObjRest fuel (skipWs rest)
    else if c = '[' then
      (fun p => (Json.arr p.1, p.2)) <$> parseArrRest fuel (skipWs rest)
    else if startsList ['t', 'r', 'u', 'e'] (c :: rest) then
      some (Json.bool true, (c :: rest).drop 4)
    else if startsList ['f', 'a', 'l', 's', 'e'] (c :: rest) then
      some (Json.bool false, (c :: rest).drop 5)
    else if startsList ['n', 'u', 'l', 'l'] (c :: rest) then
      some (Json.null, (c :: rest).drop 4)
    else
      (fun p => (Json.num p.1, p.2)) <$> parseNumber (c :: rest)

/-- Object members after the opening brace (possibly an empty object). -/
def parseObjRest : Nat → List Char → Option (List (String × Json) × List Char)
  | 0, _ => none
  | fuel + 1, l =>
    match l with
    | c :: rest => if c = rbrace then some ([], rest) else parseObjMore fuel l
    | [] => none

/-- One or more object members separated by commas, then the closing brace. -/
def parseObjMore : Nat → List Char → Option (List (String × Json) × List Char)
  | 0, _ => none
  | fuel + 1, l =>
    match l with
    | c :: rest =>
      if c = quoteChar then
        match parseStrBody fuel rest with
        | some (k, r2) =>
          match skipWs r2 with
          | ':' :: r3 =>
            match parseValue fuel (skipWs r3) with
            | some (v, r4) =>
              match skipWs r4 with
              | ',' :: r5 =>
                (fun p => ((String.mk k, v) :: p.1, p.2)) <$> parseObjMore fuel (skipWs r5)
              | d :: r6 =>
                if d = rbrace then some ([(String.mk k, v)], r6) else none
              | [] => none
            | none => none
          | _ => none
        | none => none
      else none
    | [] => none

/-- Array items after the opening bracket (possibly an empty array). -/
def parseArrRest : Nat → List Char → Option (List Json × List Char)
  | 0, _ => none
  | fuel + 1, l =>
    match l with
    | ']' :: rest => some ([], rest)
    | _ => parseArrMore fuel l

/-- One or more array items separated by commas, then the closing bracket. -/
def parseArrMore : Nat → List Char → Option (List Json × List Char)
  | 0, _ => none
  | fuel + 1, l =>
    match parseValue fuel l with
    | some (v, r) =>
      match skipWs r with
      | ',' :: r2 => (fun p => (v :: p.1, p.2)) <$> parseArrMore fuel (skipWs r2)
      | ']' :: r2 => some ([v], r2)
      | _ => none
    | none => none

end

/-- Model of Python `json.loads`: a single JSON document with optional
surrounding whitespace. -/
def parseJson (l : List Char) : Option Json :=
  match parseValue (3 * l.length + 8) (skipWs l) with
  | some (j, rest) => if skipWs rest = [] then some j else none
  | none => none

/-- If the input starts with three backticks, return the remainder. -/
def tripleFenceAt : List Char → Option (List Char)
  | a :: b :: c :: r =>
    if a = btChar && b = btChar && c = btChar then some r else none
  | _ => none

/-- Suffix following the first occurrence of three consecutive backticks. -/
def findFence : List Char → Option (List Char)
  | [] => none
  | x :: xs =>
    match tripleFenceAt (x :: xs) with
    | some r => some r
    | none => findFence xs

/-- Split at the first occurrence of three consecutive backticks:
`(before, after)` with the fence removed. -/
def splitAtFence : List Char → Option (List Char × List Char)
  | [] => none
  | x :: xs =>
    match tripleFenceAt (x :: xs) with
    | some r => some ([], r)
    | none => (fun p => (x :: p.1, p.2)) <$> splitAtFence xs

/-- Strip an optional literal `json` tag right after the opening fence
(the regex group `(?:json)?`). -/
def stripJsonTag (l : List Char) : List Char :=
  match l with
  | 'j' :: 's' :: 'o' :: 'n' :: r => r
  | _ => l

/-- The captured group of Python
`re.search(r'NNN(?:json)?\s*([\s\S]*?)\s*NNN', text)` where `NNN` is a
triple backtick: content of the first fenced code block, with the optional
`json` tag and surrounding whitespace removed.  `none` when the regex does
not match. -/
def fencedCapture (l : List Char) : Option (List Char) :=
  match findFence l with
  | none => none
  | some afterOpen =>
    let body := skipWs (stripJsonTag afterOpen)
    match splitAtFence body with
    | some p => some (dropTrailingWs p.1)
    | none => none

/-- Balanced-bracket scan of `InnerThoughtsEngine._extract_json` /
`ResponseClassifier._extract_json`: starting at an opening bracket, return
the span up to and including the bracket that returns the counter to zero.
`none` when the brackets never balance. -/
def scanBal (o c : Char) : Nat → List Char → Option (List Char)
  | _, [] => none
  | k, x :: xs =>
    if x = o then (fun r => x :: r) <$> scanBal o c (k + 1) xs
    else if x = c then
      if k = 1 then some [x] else (fun r => x :: r) <$> scanBal o c (k - 1) xs
    else (fun r => x :: r) <$> scanBal o c k xs

/-- First occurrence of an opening brace or bracket, as
`(bracket, before, after)`.  Models
`start_idx = min(text.find(chr(123)), text.find('['))` with the `-1 => len`
adjustment in `inner_thoughts.py`. -/
def firstOpenSplit : List Char → Option (Char × List Char × List Char)
  | [] => none
  | x :: xs =>
    if x = lbrace || x = '[' then some (x, [], xs)
    else (fun p => (p.1, x :: p.2.1, p.2.2)) <$> firstOpenSplit xs

namespace InnerThoughtsEngine

/-- Second step of `InnerThoughtsEngine._extract_json`
(`src/inner_thoughts.py` lines 345-370): find the first `(` -like opening
brace or bracket, take the balanced span, and `json.loads` it.  When the
brackets never balance the source calls `json.loads` on the empty slice,
which fails, giving `none`. -/
def directJsonScan (l : List Char) : Option Json :=
  match firstOpenSplit l with
  | none => none
  | some (b, _, rest) =>
    let c := if b = lbrace then rbrace else ']'
    match scanBal b c 0 (b :: rest) with
    | some span => parseJson span
    | none => none

/-- `InnerThoughtsEngine._extract_json` (`src/inner_thoughts.py` lines
335-372): first a fenced code block, then the first balanced brace/bracket
span. -/
def _extract_json (l : List Char) : Option Json :=
  match fencedCapture l with
  | some inner =>
    match parseJson inner with
    | some j => some j
    | none => directJsonScan l
  | none => directJsonScan l

end InnerThoughtsEngine

namespace ResponseClassifier

/-- Second step of `ResponseClassifier._extract_json`
(`src/response_classifier.py` lines 163-176): braces only, returning `none`
when the braces never balance. -/
def directJsonScan (l : List Char) : Option Json :=
  match splitAtFirst lbrace l with
  | none => none
  | some (_, rest) =>
    match scanBal lbrace rbrace 0 (lbrace :: rest) with
    | some span => parseJson span
    | none => none

/-- `ResponseClassifier._extract_json` (`src/response_classifier.py` lines
153-177). -/
def _extract_json (l : List Char) : Option Json :=
  match fencedCapture l with
  | some inner =>
    match parseJson inner with
    | some j => some j
    | none => directJsonScan l
  | none => directJsonScan l

end ResponseClassifier

namespace InformationGatherer

/-- The span matched by Python `re.search(r'\x7b.*?\x7d', text, re.DOTALL)`
in `InformationGatherer.evaluate_article_relevance`
(`src/information_gatherer.py` line 249): from the first opening brace to
the first closing brace after it, regardless of nesting. -/
def relevanceJsonSpan (l : List Char) : Option (List Char) :=
  match splitAtFirst lbrace l with
  | none => none
  | some (_, rest) =>
    match splitAtFirst rbrace rest with
    | none => none
    | some (mid, _) => some (lbrace :: (mid ++ [rbrace]))

/-- The JSON extraction performed inline by
`InformationGatherer.evaluate_article_relevance`
(`src/information_gatherer.py` lines 246-253): the single lazy-regex span,
then `json.loads`; any failure yields `none` (the caller then scores 0). -/
def relevanceExtractJson (l : List Char) : Option Json :=
  match relevanceJsonSpan l with
  | some span => parseJson span
  | none => none

end InformationGatherer

/-- Recognized configuration options (`config.py` is not part of `src/`;
the spec's configuration surface lists these recognized options, and the
source reads them as `config.*` constants).  They are carried explicitly. -/
structure Config where
  SHORT_TERM_MEMORY_SIZE : Nat
  LONG_TERM_MEMORY_SIZE : Nat
  THOUGHT_RESERVOIR_SIZE : Nat
  MOTIVATION_THRESHOLD : ℚ
  SILENCE_TIMEOUT : Nat
  THOUGHT_GENERATION_INTERVAL : Nat
  MIN_INTERVENTION_INTERVAL : Nat
  MAX_CONSECUTIVE_INTERVENTIONS : Nat
  INFO_SHARE_MOTIVATION_THRESHOLD : ℚ
  MAX_DAILY_SHARES : Nat
deriving DecidableEq

/-- `memory.Message` (`src/memory.py` lines 16-25); timestamps are model
time points (`Nat`). -/
structure Message where
  role : String
  content : String
  timestamp : Nat
  user_id : String
deriving DecidableEq

/-- `memory.Thought` (`src/memory.py` lines 28-39). -/
structure Thought where
  content : String
  motivation_score : ℚ
  reasoning : String
  timestamp : Nat
  triggered_by : String
  expressed : Bool := false
deriving DecidableEq

/-- `memory.LongTermMemory` (`src/memory.py` lines 42-54). -/
structure LongTermMemory where
  user_id : String
  key : String
  content : String
  importance : ℚ
  created_at : Nat
  last_accessed : Nat
  access_count : Nat := 1
deriving DecidableEq

/-- In-memory state of one `memory.MemoryManager` (`src/memory.py` lines
65-92).  The two deques are lists with the newest element last. -/
structure MemoryState where
  user_id : String
  short_term : List Message := []
  long_term : List LongTermMemory := []
  thought_reservoir : List Thought := []
  last_user_message_time : Option Nat := none
  last_ai_message_time : Option Nat := none
  consecutive_ai_messages : Nat := 0
deriving DecidableEq

/-- `collections.deque(maxlen := cap).append`: append on the right,
dropping from the left whenever the length would exceed `cap`. -/
def dequeAppend (cap : Nat) (l : List α) (x : α) : List α :=
  let l' := l ++ [x]
  if cap < l'.length then l'.drop (l'.length - cap) else l'

namespace MemoryManager

/-- `MemoryManager.add_message` (`src/memory.py` lines 98-116). -/
def add_message (cfg : Config) (now : Nat) (role content : String)
    (st : MemoryState) : MemoryState :=
  let msg : Message := ⟨role, content, now, st.user_id⟩
  let st1 := {st with short_term := dequeAppend cfg.SHORT_TERM_MEMORY_SIZE st.short_term msg}
  if role = "user" then
    {st1 with last_user_message_time := some now, consecutive_ai_messages := 0}
  else
    {st1 with last_ai_message_time := some now,
              consecutive_ai_messages := st.consecutive_ai_messages + 1}

/-- Ranking key of the long-term capacity enforcement:
`importance * access_count`. -/
def ltmScore (m : LongTermMemory) : ℚ := m.importance * (m.access_count : ℚ)

/-- The comparison under which `add_long_term_memory` sorts:
descending by `ltmScore`. -/
def ltmLe (a b : LongTermMemory) : Bool := decide (ltmScore b ≤ ltmScore a)

/-- Python's stable `list.sort(key := score, reverse := True)`:
a stable merge sort under the descending comparison. -/
def pySortDesc (l : List LongTermMemory) : List LongTermMemory :=
  l.mergeSort ltmLe

/-- The update branch of `MemoryManager.add_long_term_memory`
(`src/memory.py` lines 149-157): update the first fact whose key and user
id match, returning `none` when there is no such fact. -/
def updFirst (uid key content : String) (importance : ℚ) (now : Nat) :
    List LongTermMemory → Option (List LongTermMemory)
  | [] => none
  | m :: rest =>
    if m.key = key ∧ m.user_id = uid then
      some ({m with content := content, importance := importance,
                    last_accessed := now, access_count := m.access_count + 1} :: rest)
    else (fun r => m :: r) <$> updFirst uid key content importance now rest

/-- `MemoryManager.add_long_term_memory` (`src/memory.py` lines 147-180):
upsert by `(user_id, key)`, then capacity enforcement by a stable
descending sort on `importance * access_count` followed by truncation.
Durable persistence (`_save_to_disk`) is I/O and does not change the
in-memory state. -/
def add_long_term_memory (cfg : Config) (now : Nat) (key content : String)
    (importance : ℚ) (st : MemoryState) : MemoryState :=
  match updFirst st.user_id key content importance now st.long_term with
  | some lt => {st with long_term := lt}
  | none =>
    let m : LongTermMemory := ⟨st.user_id, key, content, importance, now, now, 1⟩
    let lt := st.long_term ++ [m]
    let lt' :=
      if cfg.LONG_TERM_MEMORY_SIZE < lt.length then
        (pySortDesc lt).take cfg.LONG_TERM_MEMORY_SIZE
      else lt
    {st with long_term := lt'}

/-- `MemoryManager.add_thought` (`src/memory.py` lines 223-234): a fresh
`Thought` (hence `expressed := false`) is appended to the bounded
reservoir. -/
def add_thought (cfg : Config) (now : Nat) (content : String)
    (motivation_score : ℚ) (reasoning triggered_by : String)
    (st : MemoryState) : MemoryState :=
  let t : Thought := ⟨content, motivation_score, reasoning, now, triggered_by, false⟩
  {st with thought_reservoir := dequeAppend cfg.THOUGHT_RESERVOIR_SIZE st.thought_reservoir t}

/-- `MemoryManager.get_pending_thoughts` (`src/memory.py` lines 236-241). -/
def get_pending_thoughts (min_score : ℚ) (st : MemoryState) : List Thought :=
  st.thought_reservoir.filter (fun t => !t.expressed && decide (min_score ≤ t.motivation_score))

/-- `MemoryManager.get_silence_duration` (`src/memory.py` lines 258-262). -/
def get_silence_duration (now : Nat) (st : MemoryState) : Nat :=
  match st.last_user_message_time with
  | none => 0
  | some t => now - t

/-- `MemoryManager.can_intervene` (`src/memory.py` lines 264-276). -/
def can_intervene (cfg : Config) (now : Nat) (st : MemoryState) : Bool :=
  if cfg.MAX_CONSECUTIVE_INTERVENTIONS ≤ st.consecutive_ai_messages then false
  else
    match st.last_ai_message_time with
    | some t => if now - t < cfg.MIN_INTERVENTION_INTERVAL then false else true
    | none => true

/-- `MemoryManager._load_from_disk` (`src/memory.py` lines 291-298) applied
at construction (`__init__`, lines 65-92): a fresh in-memory state whose
long-term list is the durable per-user record when present. -/
def fresh_from_disk (disk : String → Option (List LongTermMemory))
    (uid : String) : MemoryState :=
  let base : MemoryState := {user_id := uid}
  match disk uid with
  | some data => {base with long_term := data}
  | none => base

end MemoryManager

namespace InnerThoughtsEngine

/-- `InnerThoughtsEngine.should_trigger_thought` (`src/inner_thoughts.py`
lines 35-56): the returned reason string, or `none` when no trigger fires.
The f-string interpolations of the silence duration are reproduced. -/
def should_trigger_thought (cfg : Config) (now : Nat) (st : MemoryState) :
    Option String :=
  let silence := MemoryManager.get_silence_duration now st
  if cfg.SILENCE_TIMEOUT < silence then
    some ("silence_timeout (" ++ toString silence ++ "s)")
  else if st.last_user_message_time.isSome && cfg.THOUGHT_GENERATION_INTERVAL < silence then
    some ("periodic (" ++ toString silence ++ "s since last message)")
  else
    match st.short_term.getLast? with
    | some m => if m.role = "user" then some "new_user_message" else none
    | none => none

/-- Outcomes of the external text capability during one proactive cycle.
`genThought` is the parsed result of `generate_thought` (`none` covers both
a capability error and unparseable output); `evalScore` / `evalShouldSpeak`
/ `evalReasoning` are the values of `evaluate_motivation`'s dict after the
source's `.get` defaults (a parse failure or error is `(0, false, _)` per
lines 139-147 of `src/inner_thoughts.py`); `renderResponse` and
`silenceBreak` are the rendered utterances, the empty string on error. -/
structure CycleOracle where
  genThought : Option (String × String)
  evalScore : ℚ
  evalShouldSpeak : Bool
  evalReasoning : String
  renderResponse : String
  silenceBreak : String

/-- The fixed fallback reply of `generate_reactive_response`
(`src/inner_thoughts.py` line 236). -/
def reactiveFallback : String := "ごめん、ちょっと調子悪いみたい..."

/-- `InnerThoughtsEngine.generate_reactive_response`
(`src/inner_thoughts.py` lines 213-236): the stripped capability output on
success, the fixed apology on failure. -/
def generate_reactive_response (cap : Option String) : String :=
  match cap with
  | some s => pyStrip s
  | none => reactiveFallback

/-- `InnerThoughtsEngine.process_proactive_cycle` (`src/inner_thoughts.py`
lines 278-329).  Note that line 326 sets `expressed` on the local `Thought`
returned by `generate_thought`, while `memory.add_thought` (line 311) has
appended a distinct, freshly constructed `Thought` to the reservoir; only
the memory state visible here is the reservoir's. -/
def process_proactive_cycle (cfg : Config) (now : Nat) (o : CycleOracle)
    (st : MemoryState) : Option String × MemoryState :=
  if !MemoryManager.can_intervene cfg now st then (none, st)
  else
    match should_trigger_thought cfg now st with
    | none => (none, st)
    | some reason =>
      if strIn "silence_timeout" reason then (some o.silenceBreak, st)
      else
        match o.genThought with
        | none => (none, st)
        | some tp =>
          let st1 := MemoryManager.add_thought cfg now tp.1 o.evalScore o.evalReasoning reason st
          if cfg.MOTIVATION_THRESHOLD ≤ o.evalScore then
            if o.evalShouldSpeak then
              if o.renderResponse ≠ "" then (some o.renderResponse, st1)
              else (none, st1)
            else (none, st1)
          else (none, st1)

end InnerThoughtsEngine

namespace ResponseClassifier

/-- The fixed reaction table `REACTIONS`
(`src/response_classifier.py` lines 24-38). -/
def REACTIONS : List (String × String) :=
  [("acknowledge", "👍"), ("thanks", "😊"), ("understood", "👌"),
   ("funny", "😂"), ("sad", "🥲"), ("love", "❤️"), ("cool", "🔥"),
   ("thinking", "🤔"), ("surprise", "😮"), ("celebrate", "🎉"),
   ("sleepy", "😴"), ("food", "🤤"), ("eyes", "👀")]

/-- `REACTIONS.get tag` for a string tag. -/
def reactionsGet (s : String) : Option String :=
  (REACTIONS.find? (fun p => p.1 = s)).map (fun p => p.2)

/-- `response_classifier.ResponseDecision` (lines 15-20).  `action` and
`reason` hold whatever JSON values the capability supplied (Python stores
them untyped); `reaction` is the presentation symbol, when attached. -/
structure ResponseDecision where
  action : Json
  reaction : Option String
  reason : Json

/-- `ResponseClassifier.classify` (`src/response_classifier.py` lines
54-151) as a function of the external capability outcome (`none` models a
raised exception, `some text` the returned free text).  The source's
control flow: a failed or falsy extraction defaults to a reply; accessing
`.get` on a truthy non-dict raises, landing in the `except` branch, which
also defaults to a reply; looking up an unhashable (list/dict) reaction
tag raises likewise; any other unknown tag just gets no symbol. -/
def classify (cap : Option String) : ResponseDecision :=
  match cap with
  | none => ⟨Json.str "reply", none, Json.str "Error"⟩
  | some text =>
    match _extract_json text.data with
    | none => ⟨Json.str "reply", none, Json.str "Parse error - defaulting to reply"⟩
    | some j =>
      if !pyTruthy j then
        ⟨Json.str "reply", none, Json.str "Parse error - defaulting to reply"⟩
      else
        match j with
        | Json.obj kvs =>
          let action := (jGet kvs "action").getD (Json.str "reply")
          let rt := (jGet kvs "reaction_type").getD Json.null
          let reason := (jGet kvs "reason").getD (Json.str "")
          if !pyTruthy rt then ⟨action, none, reason⟩
          else
            match rt with
            | Json.str s => ⟨action, reactionsGet s, reason⟩
            | Json.arr _ => ⟨Json.str "reply", none, Json.str "Error"⟩
            | Json.obj _ => ⟨Json.str "reply", none, Json.str "Error"⟩
            | _ => ⟨action, none, reason⟩
        | _ => ⟨Json.str "reply", none, Json.str "Error"⟩

end ResponseClassifier

namespace InformationGatherer

/-- `information_gatherer.Article` (`src/information_gatherer.py` lines
17-31). -/
structure Article where
  title : String
  url : String
  description : String
  source : String
  published : Option String
  search_query : String
  found_at : Nat
  relevance_score : ℚ := 0
  shared : Bool := false
deriving DecidableEq

/-- One Brave Search result, restricted to the fields
`search_for_user` reads (`src/information_gatherer.py` lines 168-185). -/
structure SearchResult where
  title : String
  url : String
  description : String
  hostname : String
  age : Option String
deriving DecidableEq

/-- The mutable per-user state of `InformationGatherer.__init__`
(`src/information_gatherer.py` lines 49-54): seen-URL sets, daily share
counters (`dict.get` default 0 modelled by a total function), and the
last-reset dates (`datetime.date` modelled as `Nat`). -/
structure GathererState where
  seen_urls : String → List String
  daily_shares : String → Nat
  last_share_reset : String → Option Nat

/-- Pointwise map update. -/
def upd (f : String → α) (k : String) (v : α) : String → α :=
  fun k' => if k' = k then v else f k'

/-- Build an `Article` from one search result
(`src/information_gatherer.py` lines 177-185). -/
def mkArticle (r : SearchResult) (interest : String) (now : Nat) : Article :=
  ⟨r.title, r.url, r.description, r.hostname, r.age, interest, now, 0, false⟩

/-- `InformationGatherer.search_for_user` (`src/information_gatherer.py`
lines 142-188), with the interest list (normally produced by
`extract_interests`) and the search capability passed as oracles: for each
of the first three interests, keep the results whose URL is not yet in the
user's seen-set, adding every kept URL to the seen-set. -/
def search_for_user (st : GathererState) (uid : String)
    (interests : List String) (searchOracle : String → List SearchResult)
    (now : Nat) : List Article × GathererState :=
  if interests.isEmpty then ([], st)
  else
    (interests.take 3).foldl
      (fun acc interest =>
        (searchOracle interest).foldl
          (fun acc2 r =>
            if r.url ∈ acc2.2.seen_urls uid then acc2
            else
              (acc2.1 ++ [mkArticle r interest now],
               {acc2.2 with seen_urls := upd acc2.2.seen_urls uid (acc2.2.seen_urls uid ++ [r.url])}))
          acc)
      ([], st)

/-- `InformationGatherer._can_share_today` (`src/information_gatherer.py`
lines 368-381): lazily reset the counter when the calendar date advanced,
then compare against the quota.  Returns the answer and the (possibly
reset) state. -/
def _can_share_today (cfg : Config) (st : GathererState) (uid : String)
    (today : Nat) : Bool × GathererState :=
  let st' :=
    match st.last_share_reset uid with
    | some d =>
      if d < today then
        {st with daily_shares := upd st.daily_shares uid 0,
                 last_share_reset := upd st.last_share_reset uid (some today)}
      else st
    | none =>
      {st with daily_shares := upd st.daily_shares uid 0,
               last_share_reset := upd st.last_share_reset uid (some today)}
  (decide (st'.daily_shares uid < cfg.MAX_DAILY_SHARES), st')

/-- `InformationGatherer._increment_daily_shares`
(`src/information_gatherer.py` lines 383-385). -/
def _increment_daily_shares (st : GathererState) (uid : String) : GathererState :=
  {st with daily_shares := upd st.daily_shares uid (st.daily_shares uid + 1)}

/-- The best-candidate selection loop of `find_shareable_article`
(`src/information_gatherer.py` lines 340-349): strict improvement over the
running best, which starts at 0, and the share threshold. -/
def selectBest (thresh : ℚ) (evalScore : Article → ℚ) :
    List Article → Option Article × ℚ → Option Article × ℚ
  | [], acc => acc
  | a :: rest, acc =>
    let s := evalScore a
    if acc.2 < s ∧ thresh ≤ s then
      selectBest thresh evalScore rest (some {a with relevance_score := s}, s)
    else selectBest thresh evalScore rest acc

/-- `InformationGatherer.find_shareable_article`
(`src/information_gatherer.py` lines 317-362).  The relevance scorer and
the share-message renderer are oracles; an empty rendered message models
the capability failure (`generate_share_message` returns `""` on error). -/
def find_shareable_article (cfg : Config) (st : GathererState) (uid : String)
    (interests : List String) (searchOracle : String → List SearchResult)
    (evalScore : Article → ℚ) (renderMsg : Article → String)
    (today now : Nat) : Option (Article × String) × GathererState :=
  let q := _can_share_today cfg st uid today
  if !q.1 then (none, q.2)
  else
    let sr := search_for_user q.2 uid interests searchOracle now
    if sr.1.isEmpty then (none, sr.2)
    else
      match (selectBest cfg.INFO_SHARE_MOTIVATION_THRESHOLD evalScore sr.1 (none, 0)).1 with
      | none => (none, sr.2)
      | some best =>
        let msg := renderMsg best
        if msg ≠ "" then
          (some ({best with shared := true}, msg), _increment_daily_shares sr.2 uid)
        else (none, sr.2)

end InformationGatherer

namespace ProactiveAIBot

/-- The per-user registry `self.memories` of `ProactiveAIBot`
(`src/discord_bot.py` line 49). -/
structure BotState where
  memories : List (String × MemoryState)
deriving DecidableEq

/-- `ProactiveAIBot._get_memory` (`src/discord_bot.py` lines 516-520):
return the cached manager, or lazily construct one — which reads the
durable per-user record from disk (`MemoryManager.__init__` →
`_load_from_disk`). -/
def _get_memory (disk : String → Option (List LongTermMemory))
    (bs : BotState) (uid : String) : MemoryState × BotState :=
  match bs.memories.find? (fun p => p.1 = uid) with
  | some p => (p.2, bs)
  | none =>
    let m := MemoryManager.fresh_from_disk disk uid
    (m, ⟨bs.memories ++ [(uid, m)]⟩)

/-- The `!forget` command `forget_memories` (`src/discord_bot.py` lines
339-346): delete the in-memory manager for the user.  Nothing else — in
particular the durable record is not touched. -/
def forget_memories (bs : BotState) (uid : String) : BotState :=
  ⟨bs.memories.filter (fun p => p.1 ≠ uid)⟩

/-- The reply branch of `ProactiveAIBot.on_message` (`src/discord_bot.py`
lines 141-152) as a function of the generated response: record the
response via `add_message` unless it is the engine's fallback (detected by
the substring test on line 147), then send it.  Returns the sent text and
the updated memory. -/
def on_message_reply (cfg : Config) (now : Nat) (response : String)
    (st : MemoryState) : String × MemoryState :=
  let is_fallback := strIn "調子悪いみたい..." response
  (response, if is_fallback then st else MemoryManager.add_message cfg now "assistant" response st)

end ProactiveAIBot

/-! ## Helper lemmas about the extraction primitives -/

theorem tripleFenceAt_eq_none {x : Char} {xs : List Char} (hx : x ≠ btChar) :
    tripleFenceAt (x :: xs) = none := by
  cases xs with
  | nil => rfl
  | cons b bs =>
    cases bs with
    | nil => rfl
    | cons c cs => simp [tripleFenceAt, hx]

theorem findFence_eq_none {l : List Char} (h : btChar ∉ l) : findFence l = none := by
  induction l with
  | nil => rfl
  | cons x xs ih =>
    have hx : x ≠ btChar := fun he => h (by rw [he]; exact List.mem_cons_self _ _)
    have hxs : btChar ∉ xs := fun hm => h (List.mem_cons_of_mem x hm)
    simp only [findFence, tripleFenceAt_eq_none hx]
    exact ih hxs

theorem splitAtFirst_append {c : Char} {pre rest : List Char} (h : c ∉ pre) :
    splitAtFirst c (pre ++ c :: rest) = some (pre, rest) := by
  induction pre with
  | nil => simp [splitAtFirst]
  | cons x xs ih =>
    have hx : x ≠ c := fun he => h (by rw [he]; exact List.mem_cons_self _ _)
    have hxs : c ∉ xs := fun hm => h (List.mem_cons_of_mem x hm)
    simp [splitAtFirst, hx, ih hxs]

theorem firstOpenSplit_append {pre rest : List Char}
    (h1 : lbrace ∉ pre) (h2 : '[' ∉ pre) :
    firstOpenSplit (pre ++ lbrace :: rest) = some (lbrace, pre, rest) := by
  induction pre with
  | nil => simp [firstOpenSplit]
  | cons x xs ih =>
    have hx1 : x ≠ lbrace := fun he => h1 (by rw [he]; exact List.mem_cons_self _ _)
    have hx2 : x ≠ '[' := fun he => h2 (by rw [he]; exact List.mem_cons_self _ _)
    have ih' := ih (fun hm => h1 (List.mem_cons_of_mem x hm))
      (fun hm => h2 (List.mem_cons_of_mem x hm))
    simp [firstOpenSplit, hx1, hx2, ih']

theorem scanBal_cons_open {o c : Char} {k : Nat} {rest : List Char} :
    scanBal o c k (o :: rest) = (fun r => o :: r) <$> scanBal o c (k + 1) rest := by
  simp [scanBal]

theorem scanBal_flat {mid post : List Char}
    (h1 : lbrace ∉ mid) (h2 : rbrace ∉ mid) :
    scanBal lbrace rbrace 1 (mid ++ rbrace :: post) = some (mid ++ [rbrace]) := by
  induction mid with
  | nil =>
    have hne : rbrace ≠ lbrace := by decide
    simp [scanBal, hne]
  | cons x xs ih =>
    have hx1 : x ≠ lbrace := fun he => h1 (by rw [he]; exact List.mem_cons_self _ _)
    have hx2 : x ≠ rbrace := fun he => h2 (by rw [he]; exact List.mem_cons_self _ _)
    have ih' := ih (fun hm => h1 (List.mem_cons_of_mem x hm))
      (fun hm => h2 (List.mem_cons_of_mem x hm))
    simp [scanBal, hx1, hx2, ih']

/-! ## C5 — the two JSON extractions -/

/-- A capability output consisting of a nested JSON object (and nothing
else): the text `\x7b"a": \x7b"b": true\x7d\x7d`. -/
def c5text : List Char := "\x7b\"a\": \x7b\"b\": true\x7d\x7d".data

/-- C5, counterexample: the claim that the Information Scheduler's
extraction computes the same result as the Thought Engine's on all inputs
is false.  On a nested JSON object the Thought Engine's bracket-balanced
extraction parses the whole object, while the Scheduler's lazy
first-brace-to-first-brace regex span is truncated at the inner closing
brace and fails to parse. -/
theorem C5_counterexample_extractors_differ :
    InformationGatherer.relevanceExtractJson c5text = none ∧
    InnerThoughtsEngine._extract_json c5text =
      some (Json.obj [("a", Json.obj [("b", Json.bool true)])]) ∧
    (InformationGatherer.relevanceExtractJson c5text).isSome = false ∧
    (InnerThoughtsEngine._extract_json c5text).isSome = true :=
  ⟨rfl, rfl, rfl, rfl⟩

/-- C5, amended: the Information Scheduler's relevance parsing uses a
single lazy first-brace-span regex rather than the Thought Engine's
two-step bracket-balanced extraction; the two agree on every text with no
backtick, whose first brace is not preceded by an opening square bracket,
and whose first brace span is flat (no nested braces before the first
closing brace) — and differ otherwise (see the counterexample). -/
theorem C5_extraction_agreement (pre mid post : List Char)
    (hbt : btChar ∉ pre ++ lbrace :: (mid ++ rbrace :: post))
    (hpre1 : lbrace ∉ pre) (hpre2 : '[' ∉ pre)
    (hmid1 : lbrace ∉ mid) (hmid2 : rbrace ∉ mid) :
    InformationGatherer.relevanceExtractJson (pre ++ lbrace :: (mid ++ rbrace :: post)) =
      InnerThoughtsEngine._extract_json (pre ++ lbrace :: (mid ++ rbrace :: post)) := by
  have hfen : fencedCapture (pre ++ lbrace :: (mid ++ rbrace :: post)) = none := by
    unfold fencedCapture
    rw [findFence_eq_none hbt]
  have hspan : InformationGatherer.relevanceJsonSpan (pre ++ lbrace :: (mid ++ rbrace :: post))
      = some (lbrace :: (mid ++ [rbrace])) := by
    simp [InformationGatherer.relevanceJsonSpan, splitAtFirst_append hpre1,
      splitAtFirst_append hmid2]
  have hscan : InnerThoughtsEngine.directJsonScan (pre ++ lbrace :: (mid ++ rbrace :: post))
      = parseJson (lbrace :: (mid ++ [rbrace])) := by
    simp [InnerThoughtsEngine.directJsonScan, firstOpenSplit_append hpre1 hpre2,
      scanBal_cons_open, scanBal_flat hmid1 hmid2]
  have h1 : InformationGatherer.relevanceExtractJson (pre ++ lbrace :: (mid ++ rbrace :: post))
      = parseJson (lbrace :: (mid ++ [rbrace])) := by
    unfold InformationGatherer.relevanceExtractJson
    rw [hspan]
  have h2 : InnerThoughtsEngine._extract_json (pre ++ lbrace :: (mid ++ rbrace :: post))
      = parseJson (lbrace :: (mid ++ [rbrace])) := by
    unfold InnerThoughtsEngine._extract_json
    rw [hfen, hscan]
  rw [h1, h2]

/-- Concrete leading text for the agreement witness. -/
def c5pre : List Char := "Answer: ".data

/-- Concrete flat member text for the agreement witness. -/
def c5mid : List Char := "\"overall_score\": \"high\"".data

/-- Concrete trailing text for the agreement witness. -/
def c5post : List Char := " done".data

/-- Witness for `C5_extraction_agreement` at a concrete flat-JSON text. -/
theorem C5_extraction_agreement_witness :
    (btChar ∉ c5pre ++ lbrace :: (c5mid ++ rbrace :: c5post)) ∧
    InformationGatherer.relevanceExtractJson (c5pre ++ lbrace :: (c5mid ++ rbrace :: c5post)) =
      InnerThoughtsEngine._extract_json (c5pre ++ lbrace :: (c5mid ++ rbrace :: c5post)) :=
  ⟨by decide,
   C5_extraction_agreement c5pre c5mid c5post (by decide) (by decide) (by decide)
     (by decide) (by decide)⟩

/-! ## Shared concrete fixtures -/

/-- A representative configuration (values of the recognized options). -/
def demoConfig : Config :=
  { SHORT_TERM_MEMORY_SIZE := 10, LONG_TERM_MEMORY_SIZE := 50,
    THOUGHT_RESERVOIR_SIZE := 10, MOTIVATION_THRESHOLD := 3,
    SILENCE_TIMEOUT := 3600, THOUGHT_GENERATION_INTERVAL := 300,
    MIN_INTERVENTION_INTERVAL := 60, MAX_CONSECUTIVE_INTERVENTIONS := 3,
    INFO_SHARE_MOTIVATION_THRESHOLD := 3, MAX_DAILY_SHARES := 3 }

/-- A memory state right after one user message at time 1000. -/
def demoUserState : MemoryState :=
  { user_id := "u",
    short_term := [⟨"user", "hi", 1000, "u"⟩],
    last_user_message_time := some 1000 }

/-- A cycle in which the capability produces a thought, scores it 4 with
`should_speak = true`, and renders an utterance successfully. -/
def demoOracle : InnerThoughtsEngine.CycleOracle :=
  { genThought := some ("a thought", "a draft"),
    evalScore := 4, evalShouldSpeak := true, evalReasoning := "good timing",
    renderResponse := "hello!", silenceBreak := "sb" }

/-! ## C1 — expressed flag of the reservoir thought -/

/-- C1: the claim is right about the utterance being returned, but the
thought appended to the reservoir is NOT marked `expressed = true`.
`process_proactive_cycle` (line 326 of `src/inner_thoughts.py`) sets
`expressed` on the local `Thought` object from `generate_thought`, while
`add_thought` appended a distinct, freshly built `Thought` — so after an
authorized, successfully rendered cycle (score 4 ≥ threshold 3,
`should_speak = true`, `can_intervene()` true) the reservoir holds the
thought with `expressed = false`. -/
theorem C1_reservoir_thought_not_expressed :
    (InnerThoughtsEngine.process_proactive_cycle demoConfig 1010 demoOracle demoUserState).1
      = some "hello!" ∧
    (InnerThoughtsEngine.process_proactive_cycle demoConfig 1010 demoOracle demoUserState).2.thought_reservoir
      = [⟨"a thought", 4, "good timing", 1010, "new_user_message", false⟩] ∧
    ((InnerThoughtsEngine.process_proactive_cycle demoConfig 1010 demoOracle
        demoUserState).2.thought_reservoir.all (fun t => !t.expressed)) = true :=
  ⟨rfl, rfl, rfl⟩

/-! ## C3 — can_intervene after a user message -/

/-- A state in which the agent spoke at time 100 and has one consecutive
agent message. -/
def demoRecentAgentState : MemoryState :=
  { user_id := "u", last_ai_message_time := some 100,
    consecutive_ai_messages := 1 }

/-- C3, counterexample: immediately after a user message resets
`consecutive_ai_messages` to 0, `can_intervene()` can still return false —
here because only 10 seconds have elapsed since the last agent message
while `MIN_INTERVENTION_INTERVAL` is 60. -/
theorem C3_counterexample_min_interval :
    (MemoryManager.add_message demoConfig 110 "user" "hi" demoRecentAgentState).consecutive_ai_messages
      = 0 ∧
    MemoryManager.can_intervene demoConfig 110
      (MemoryManager.add_message demoConfig 110 "user" "hi" demoRecentAgentState) = false := by
  decide

/-- C3, amended: `can_intervene()` returns false in any state where
`consecutive_agent_messages` has reached `maxConsecutive`; and in the state
reached immediately after any user message (which resets the counter to 0)
it returns true provided `maxConsecutive` is positive and the
minimum-intervention-interval condition also holds (no agent message yet,
or at least `MIN_INTERVENTION_INTERVAL` elapsed since the last one). -/
theorem C3_can_intervene_amended (cfg : Config) (now now2 : Nat)
    (content : String) (st : MemoryState) :
    (cfg.MAX_CONSECUTIVE_INTERVENTIONS ≤ st.consecutive_ai_messages →
       MemoryManager.can_intervene cfg now st = false) ∧
    (0 < cfg.MAX_CONSECUTIVE_INTERVENTIONS →
       (∀ t, st.last_ai_message_time = some t → cfg.MIN_INTERVENTION_INTERVAL ≤ now2 - t) →
       MemoryManager.can_intervene cfg now2
         (MemoryManager.add_message cfg now "user" content st) = true) := by
  constructor
  · intro h
    simp [MemoryManager.can_intervene, h]
  · intro hpos hint
    have hst : (MemoryManager.add_message cfg now "user" content st).last_ai_message_time
        = st.last_ai_message_time := by
      simp [MemoryManager.add_message]
    have hc : (MemoryManager.add_message cfg now "user" content st).consecutive_ai_messages
        = 0 := by
      simp [MemoryManager.add_message]
    unfold MemoryManager.can_intervene
    rw [hst, hc]
    have hmax : ¬ (cfg.MAX_CONSECUTIVE_INTERVENTIONS ≤ 0) := by omega
    rw [if_neg hmax]
    cases hlast : st.last_ai_message_time with
    | none => rfl
    | some t =>
      have hge := hint t hlast
      show (if now2 - t < cfg.MIN_INTERVENTION_INTERVAL then false else true) = true
      rw [if_neg (Nat.not_lt.mpr hge)]

/-- Witness for `C3_can_intervene_amended`: a fresh state (no agent message
yet), `maxConsecutive = 3`. -/
theorem C3_can_intervene_amended_witness :
    MemoryManager.can_intervene demoConfig 20
      (MemoryManager.add_message demoConfig 10 "user" "hey"
        { user_id := "u" : MemoryState }) = true :=
  (C3_can_intervene_amended demoConfig 10 20 "hey" { user_id := "u" }).2
    (by decide) (fun t ht => by simp at ht)

/-! ## C4 — forget does not clear the durable record -/

/-- A persisted long-term fact for the user `alice`. -/
def demoFact : LongTermMemory := ⟨"alice", "hobby", "piano", 4, 1, 1, 2⟩

/-- The durable per-user store with `alice`'s record present. -/
def demoDisk : String → Option (List LongTermMemory) :=
  fun u => if u = "alice" then some [demoFact] else none

/-- The bot registry with `alice`'s in-memory manager loaded. -/
def demoBot : ProactiveAIBot.BotState :=
  ⟨[("alice", { user_id := "alice", long_term := [demoFact] })]⟩

/-- C4: the claim (and the spec) say a forget discards the long-term
facts, so a Memory Store created on next contact starts empty even when the
durable record still exists.  The code only deletes the in-memory manager
(`del self.memories[user_id]`) and never touches the durable record, so the
lazily re-created store reloads the old facts from disk. -/
theorem C4_forget_reloads_disk :
    (ProactiveAIBot.forget_memories demoBot "alice").memories = [] ∧
    (ProactiveAIBot._get_memory demoDisk
      (ProactiveAIBot.forget_memories demoBot "alice") "alice").1.long_term = [demoFact] ∧
    (ProactiveAIBot._get_memory demoDisk
      (ProactiveAIBot.forget_memories demoBot "alice") "alice").1.long_term.length = 1 :=
  ⟨rfl, rfl, rfl⟩

/-! ## C10 — the reactive fallback is not recorded -/

/-- C10: when reactive generation fails, the engine returns its fixed
fallback apology; the message handler sends it but does not record it via
`add_message`, leaving the memory state (short-term window,
`consecutive_ai_messages`, `last_ai_message_time`) entirely unchanged. -/
theorem C10_fallback_not_recorded (cfg : Config) (now : Nat)
    (st : MemoryState) (cap : Option String) (hcap : cap = none) :
    ProactiveAIBot.on_message_reply cfg now
      (InnerThoughtsEngine.generate_reactive_response cap) st
      = (InnerThoughtsEngine.reactiveFallback, st) := by
  subst hcap
  show ProactiveAIBot.on_message_reply cfg now InnerThoughtsEngine.reactiveFallback st = _
  unfold ProactiveAIBot.on_message_reply
  have hmark : strIn "調子悪いみたい..." InnerThoughtsEngine.reactiveFallback = true := by decide
  rw [hmark]
  simp

/-- Witness for `C10_fallback_not_recorded` at a concrete state. -/
theorem C10_fallback_not_recorded_witness :
    ProactiveAIBot.on_message_reply demoConfig 1020
      (InnerThoughtsEngine.generate_reactive_response none) demoUserState
      = (InnerThoughtsEngine.reactiveFallback, demoUserState) :=
  C10_fallback_not_recorded demoConfig 1020 demoUserState none rfl

/-! ## C8 — bounded FIFO short-term window -/

/-- A sequence of `add_message` calls, each a `(time, role, content)`
triple, applied in order. -/
def applyMessages (cfg : Config) (ops : List (Nat × String × String))
    (st : MemoryState) : MemoryState :=
  ops.foldl (fun s op => MemoryManager.add_message cfg op.1 op.2.1 op.2.2 s) st

theorem add_message_short_term (cfg : Config) (now : Nat)
    (role content : String) (st : MemoryState) :
    (MemoryManager.add_message cfg now role content st).short_term
      = dequeAppend cfg.SHORT_TERM_MEMORY_SIZE st.short_term
          ⟨role, content, now, st.user_id⟩ := by
  by_cases h : role = "user" <;> simp [MemoryManager.add_message, h]

theorem dequeAppend_length_le {α : Type} (cap : Nat) (l : List α) (x : α)
    (h : l.length ≤ cap) : (dequeAppend cap l x).length ≤ cap := by
  unfold dequeAppend
  by_cases hc : cap < (l ++ [x]).length
  · rw [if_pos hc]
    simp only [List.length_drop]
    omega
  · rw [if_neg hc]
    simp only [List.length_append, List.length_cons, List.length_nil] at hc ⊢
    omega

theorem dequeAppend_full {α : Type} {cap : Nat} {l : List α} (x : α)
    (h : l.length = cap) (hpos : 0 < cap) :
    dequeAppend cap l x = l.tail ++ [x] := by
  cases l with
  | nil =>
    simp only [List.length_nil] at h
    omega
  | cons a t =>
    have hlen : ((a :: t) ++ [x]).length = cap + 1 := by
      simp only [List.length_append, List.length_cons, List.length_nil]
      simp only [List.length_cons] at h
      omega
    unfold dequeAppend
    rw [if_pos (by rw [hlen]; omega), hlen]
    simp

/-- C8: for every sequence of `add_message` calls the short-term window
never exceeds `SHORT_TERM_MEMORY_SIZE`, and adding a message to a full
window evicts exactly the oldest message (FIFO). -/
theorem C8_short_term_fifo (cfg : Config) (ops : List (Nat × String × String))
    (st : MemoryState)
    (hinit : st.short_term.length ≤ cfg.SHORT_TERM_MEMORY_SIZE) :
    (applyMessages cfg ops st).short_term.length ≤ cfg.SHORT_TERM_MEMORY_SIZE ∧
    (∀ now role content, st.short_term.length = cfg.SHORT_TERM_MEMORY_SIZE →
       0 < cfg.SHORT_TERM_MEMORY_SIZE →
       (MemoryManager.add_message cfg now role content st).short_term
         = st.short_term.tail ++ [⟨role, content, now, st.user_id⟩]) := by
  constructor
  · induction ops generalizing st with
    | nil => exact hinit
    | cons op rest ih =>
      have hstep : (MemoryManager.add_message cfg op.1 op.2.1 op.2.2 st).short_term.length
          ≤ cfg.SHORT_TERM_MEMORY_SIZE := by
        rw [add_message_short_term]
        exact dequeAppend_length_le _ _ _ hinit
      exact ih _ hstep
  · intro now role content hfull hpos
    rw [add_message_short_term]
    exact dequeAppend_full _ hfull hpos

/-- A smaller configuration (window, long-term and reservoir capacity 2)
used by overflow witnesses. -/
def demoSmallConfig : Config :=
  { demoConfig with SHORT_TERM_MEMORY_SIZE := 2, LONG_TERM_MEMORY_SIZE := 2,
                    THOUGHT_RESERVOIR_SIZE := 2 }

/-- A memory state whose short-term window is full for
`demoSmallConfig`. -/
def demoFullWindowState : MemoryState :=
  { user_id := "u",
    short_term := [⟨"user", "a", 1, "u"⟩, ⟨"assistant", "b", 2, "u"⟩] }

/-- Witness for `C8_short_term_fifo`: the bound after two concrete calls,
and the FIFO eviction on a concrete full window. -/
theorem C8_short_term_fifo_witness :
    (applyMessages demoConfig [(1, "user", "a"), (2, "assistant", "b")]
        demoUserState).short_term.length ≤ demoConfig.SHORT_TERM_MEMORY_SIZE ∧
    (MemoryManager.add_message demoSmallConfig 5 "user" "x"
        demoFullWindowState).short_term
      = demoFullWindowState.short_term.tail ++ [⟨"user", "x", 5, "u"⟩] :=
  ⟨(C8_short_term_fifo demoConfig [(1, "user", "a"), (2, "assistant", "b")]
      demoUserState (by decide)).1,
   (C8_short_term_fifo demoSmallConfig [] demoFullWindowState (by decide)).2
     5 "user" "x" (by decide) (by decide)⟩

/-! ## C6 — long-term capacity enforcement -/

theorem updFirst_eq_none (uid key content : String) (imp : ℚ) (now : Nat)
    {l : List LongTermMemory}
    (h : ∀ m ∈ l, ¬(m.key = key ∧ m.user_id = uid)) :
    MemoryManager.updFirst uid key content imp now l = none := by
  induction l with
  | nil => rfl
  | cons m rest ih =>
    have hm := h m (List.mem_cons_self _ _)
    have ih' := ih (fun x hx => h x (List.mem_cons_of_mem _ hx))
    simp [MemoryManager.updFirst, hm, ih']

theorem ltmLe_trans (a b c : LongTermMemory) :
    MemoryManager.ltmLe a b → MemoryManager.ltmLe b c → MemoryManager.ltmLe a c := by
  simp only [MemoryManager.ltmLe, decide_eq_true_eq]
  exact fun hab hbc => le_trans hbc hab

theorem ltmLe_total (a b : LongTermMemory) :
    MemoryManager.ltmLe a b || MemoryManager.ltmLe b a := by
  simp only [MemoryManager.ltmLe, Bool.or_eq_true, decide_eq_true_eq]
  exact (le_total (MemoryManager.ltmScore b) (MemoryManager.ltmScore a)).imp id id

/-- C6: when an insertion overflows the long-term list, the retained list
is exactly the first `LONG_TERM_MEMORY_SIZE` entries of the stable
descending sort of the pre-sort list by `importance * access_count`; the
sort is a permutation (nothing is invented or lost beyond the evicted
suffix), no evicted fact outranks any retained fact, and any
`ltmScore`-sorted sublist of the pre-sort list — in particular any run of
equal-score facts in their original order — survives as a sublist of the
sorted list (stability of the tie-break). -/
theorem C6_capacity_eviction (cfg : Config) (now : Nat) (key content : String)
    (imp : ℚ) (st : MemoryState)
    (hnokey : ∀ m ∈ st.long_term, ¬(m.key = key ∧ m.user_id = st.user_id))
    (hover : cfg.LONG_TERM_MEMORY_SIZE < st.long_term.length + 1) :
    (MemoryManager.add_long_term_memory cfg now key content imp st).long_term
      = (MemoryManager.pySortDesc
          (st.long_term ++ [⟨st.user_id, key, content, imp, now, now, 1⟩])).take
            cfg.LONG_TERM_MEMORY_SIZE ∧
    List.Perm
      (MemoryManager.pySortDesc (st.long_term ++ [⟨st.user_id, key, content, imp, now, now, 1⟩]))
      (st.long_term ++ [⟨st.user_id, key, content, imp, now, now, 1⟩]) ∧
    (∀ e ∈ (MemoryManager.pySortDesc
          (st.long_term ++ [⟨st.user_id, key, content, imp, now, now, 1⟩])).drop
            cfg.LONG_TERM_MEMORY_SIZE,
       ∀ r ∈ (MemoryManager.add_long_term_memory cfg now key content imp st).long_term,
         MemoryManager.ltmScore e ≤ MemoryManager.ltmScore r) ∧
    (∀ c : List LongTermMemory,
       List.Sublist c (st.long_term ++ [⟨st.user_id, key, content, imp, now, now, 1⟩]) →
       c.Pairwise (fun a b => MemoryManager.ltmLe a b = true) →
       List.Sublist c (MemoryManager.pySortDesc
              (st.long_term ++ [⟨st.user_id, key, content, imp, now, now, 1⟩]))) := by
  have hupd := updFirst_eq_none st.user_id key content imp now hnokey
  have hlen : cfg.LONG_TERM_MEMORY_SIZE
      < (st.long_term ++ [(⟨st.user_id, key, content, imp, now, now, 1⟩ : LongTermMemory)]).length := by
    simp only [List.length_append, List.length_cons, List.length_nil]
    omega
  have hst : (MemoryManager.add_long_term_memory cfg now key content imp st).long_term
      = (MemoryManager.pySortDesc
          (st.long_term ++ [⟨st.user_id, key, content, imp, now, now, 1⟩])).take
            cfg.LONG_TERM_MEMORY_SIZE := by
    unfold MemoryManager.add_long_term_memory
    rw [hupd]
    simp only [hlen, if_pos]
  have hsorted := List.sorted_mergeSort
    (fun a b c => ltmLe_trans a b c) ltmLe_total
    (st.long_term ++ [(⟨st.user_id, key, content, imp, now, now, 1⟩ : LongTermMemory)])
  refine ⟨hst, List.mergeSort_perm _ _, ?_, ?_⟩
  · intro e he r hr
    rw [hst] at hr
    have hp : List.Pairwise (fun a b => MemoryManager.ltmLe a b = true)
        ((MemoryManager.pySortDesc
            (st.long_term ++ [⟨st.user_id, key, content, imp, now, now, 1⟩])).take
              cfg.LONG_TERM_MEMORY_SIZE ++
         (MemoryManager.pySortDesc
            (st.long_term ++ [⟨st.user_id, key, content, imp, now, now, 1⟩])).drop
              cfg.LONG_TERM_MEMORY_SIZE) := by
      rw [List.take_append_drop]
      exact hsorted
    have hcross := (List.pairwise_append.mp hp).2.2 r hr e he
    simpa [MemoryManager.ltmLe, decide_eq_true_eq] using hcross
  · intro c hsub hpair
    exact List.sublist_mergeSort (fun a b c => ltmLe_trans a b c) ltmLe_total hpair hsub

/-- Two persisted facts for the eviction witness: scores 6 and 2. -/
def demoLTState : MemoryState :=
  { user_id := "u",
    long_term := [⟨"u", "k1", "c1", 3, 1, 1, 2⟩, ⟨"u", "k2", "c2", 2, 2, 2, 1⟩] }

/-- Witness for `C6_capacity_eviction`: inserting a third fact into a
full list of capacity 2. -/
theorem C6_capacity_eviction_witness :
    (∀ m ∈ demoLTState.long_term, ¬(m.key = "k3" ∧ m.user_id = demoLTState.user_id)) ∧
    demoSmallConfig.LONG_TERM_MEMORY_SIZE < demoLTState.long_term.length + 1 ∧
    (MemoryManager.add_long_term_memory demoSmallConfig 9 "k3" "c3" 4 demoLTState).long_term
      = (MemoryManager.pySortDesc
          (demoLTState.long_term ++ [⟨demoLTState.user_id, "k3", "c3", 4, 9, 9, 1⟩])).take
            demoSmallConfig.LONG_TERM_MEMORY_SIZE :=
  ⟨by decide, by decide,
   (C6_capacity_eviction demoSmallConfig 9 "k3" "c3" 4 demoLTState
      (by decide) (by decide)).1⟩

/-! ## C7 — upsert semantics on a repeated key -/

/-- The in-place mutation of the update branch of
`add_long_term_memory` for one call `(time, content, importance)`. -/
def updFact (g : LongTermMemory) (c : Nat × String × ℚ) : LongTermMemory :=
  {g with content := c.2.1, importance := c.2.2, last_accessed := c.1,
          access_count := g.access_count + 1}

/-- A sequence of `add_long_term_memory` calls with one fixed key, each a
`(time, content, importance)` triple, applied in order. -/
def upsertCalls (cfg : Config) (key : String)
    (calls : List (Nat × String × ℚ)) (st : MemoryState) : MemoryState :=
  calls.foldl (fun s c => MemoryManager.add_long_term_memory cfg c.1 key c.2.1 c.2.2 s) st

theorem updFirst_found (uid key content : String) (imp : ℚ) (now : Nat)
    (pre post : List LongTermMemory) (f : LongTermMemory)
    (hpre : ∀ m ∈ pre, ¬(m.key = key ∧ m.user_id = uid))
    (hk : f.key = key) (hu : f.user_id = uid) :
    MemoryManager.updFirst uid key content imp now (pre ++ f :: post)
      = some (pre ++ updFact f (now, content, imp) :: post) := by
  induction pre with
  | nil => simp [MemoryManager.updFirst, hk, hu, updFact]
  | cons m rest ih =>
    have hm := hpre m (List.mem_cons_self _ _)
    have ih' := ih (fun x hx => hpre x (List.mem_cons_of_mem _ hx))
    simp [MemoryManager.updFirst, hm, ih']

theorem foldl_updFact_key (cs : List (Nat × String × ℚ)) (f : LongTermMemory) :
    (cs.foldl updFact f).key = f.key := by
  induction cs generalizing f with
  | nil => rfl
  | cons c rest ih => simp [List.foldl_cons, ih, updFact]

theorem foldl_updFact_uid (cs : List (Nat × String × ℚ)) (f : LongTermMemory) :
    (cs.foldl updFact f).user_id = f.user_id := by
  induction cs generalizing f with
  | nil => rfl
  | cons c rest ih => simp [List.foldl_cons, ih, updFact]

theorem foldl_updFact_access (cs : List (Nat × String × ℚ)) (f : LongTermMemory) :
    (cs.foldl updFact f).access_count = f.access_count + cs.length := by
  induction cs generalizing f with
  | nil => rfl
  | cons c rest ih =>
    simp [List.foldl_cons, ih, updFact]
    omega

theorem upsertCalls_shape (cfg : Config) (key : String)
    (pre post : List LongTermMemory) :
    ∀ (calls : List (Nat × String × ℚ)) (f : LongTermMemory) (st : MemoryState),
    st.long_term = pre ++ f :: post →
    f.key = key → f.user_id = st.user_id →
    (∀ m ∈ pre, ¬(m.key = key ∧ m.user_id = st.user_id)) →
    upsertCalls cfg key calls st
      = {st with long_term := pre ++ (calls.foldl updFact f) :: post} := by
  intro calls
  induction calls with
  | nil =>
    intro f st hshape hk hu hpre
    show st = _
    rw [List.foldl_nil, ← hshape]
  | cons c rest ih =>
    intro f st hshape hk hu hpre
    have hupd : MemoryManager.updFirst st.user_id key c.2.1 c.2.2 c.1 st.long_term
        = some (pre ++ updFact f c :: post) := by
      rw [hshape]
      exact updFirst_found st.user_id key c.2.1 c.2.2 c.1 pre post f hpre hk hu
    have hstep : MemoryManager.add_long_term_memory cfg c.1 key c.2.1 c.2.2 st
        = {st with long_term := pre ++ updFact f c :: post} := by
      unfold MemoryManager.add_long_term_memory
      rw [hupd]
    have hrec := ih (updFact f c) {st with long_term := pre ++ updFact f c :: post} rfl
      (by simp [updFact, hk]) (by simp [updFact, hu]) hpre
    show upsertCalls cfg key rest (MemoryManager.add_long_term_memory cfg c.1 key c.2.1 c.2.2 st) = _
    rw [hstep, hrec]
    simp [List.foldl_cons]

/-- C7: starting from a state holding exactly one fact with the given key
for this user, any non-empty sequence of upsert calls reusing that key
leaves exactly one fact with that key, in place, with `content` and
`importance` from the latest call, `access_count` incremented once per
call, and no duplicate entry (list length unchanged). -/
theorem C7_upsert_sequence (cfg : Config) (key : String)
    (calls : List (Nat × String × ℚ)) (clast : Nat × String × ℚ)
    (st : MemoryState) (pre post : List LongTermMemory) (f : LongTermMemory)
    (hshape : st.long_term = pre ++ f :: post)
    (hk : f.key = key) (hu : f.user_id = st.user_id)
    (hpre : ∀ m ∈ pre, ¬(m.key = key ∧ m.user_id = st.user_id))
    (hpost : ∀ m ∈ post, ¬(m.key = key ∧ m.user_id = st.user_id)) :
    ∃ g : LongTermMemory,
      upsertCalls cfg key (calls ++ [clast]) st
        = {st with long_term := pre ++ g :: post} ∧
      g.key = key ∧ g.user_id = st.user_id ∧
      g.content = clast.2.1 ∧ g.importance = clast.2.2 ∧
      g.access_count = f.access_count + (calls ++ [clast]).length ∧
      (pre ++ g :: post).length = st.long_term.length ∧
      (pre ++ g :: post).countP
        (fun m => decide (m.key = key ∧ m.user_id = st.user_id)) = 1 := by
  refine ⟨(calls ++ [clast]).foldl updFact f,
    upsertCalls_shape cfg key pre post (calls ++ [clast]) f st hshape hk hu hpre,
    ?_, ?_, ?_, ?_, ?_, ?_, ?_⟩
  · rw [foldl_updFact_key]; exact hk
  · rw [foldl_updFact_uid]; exact hu
  · rw [List.foldl_append]; rfl
  · rw [List.foldl_append]; rfl
  · exact foldl_updFact_access _ _
  · rw [hshape]; simp
  · have hg1 : ((calls ++ [clast]).foldl updFact f).key = key := by
      rw [foldl_updFact_key]; exact hk
    have hg2 : ((calls ++ [clast]).foldl updFact f).user_id = st.user_id := by
      rw [foldl_updFact_uid]; exact hu
    have hzpre : pre.countP (fun m => decide (m.key = key ∧ m.user_id = st.user_id)) = 0 := by
      rw [List.countP_eq_zero]
      intro m hm
      simpa using hpre m hm
    have hzpost : post.countP (fun m => decide (m.key = key ∧ m.user_id = st.user_id)) = 0 := by
      rw [List.countP_eq_zero]
      intro m hm
      simpa using hpost m hm
    simp only [List.foldl_append, List.foldl_cons, List.foldl_nil] at hg1 hg2
    rw [List.countP_append, List.countP_cons, hzpre, hzpost]
    simp [hg1, hg2]

/-- An unrelated fact with key `"k0"` for the upsert witness. -/
def demoOtherFact : LongTermMemory := ⟨"u", "k0", "other", 3, 0, 0, 1⟩

/-- The fact with key `"k1"` that the witness upserts repeatedly. -/
def demoK1Fact : LongTermMemory := ⟨"u", "k1", "old", 2, 1, 1, 1⟩

/-- A state holding exactly one fact with key `"k1"` for the upsert
witness. -/
def demoKeyedState : MemoryState :=
  { user_id := "u", long_term := [demoOtherFact, demoK1Fact] }

/-- Witness for `C7_upsert_sequence`: two further upserts of key `"k1"`. -/
theorem C7_upsert_sequence_witness :
    ∃ g : LongTermMemory,
      upsertCalls demoConfig "k1" [(5, "mid", 4), (6, "new", 5)] demoKeyedState
        = {demoKeyedState with long_term := [demoOtherFact] ++ g :: []} ∧
      g.key = "k1" ∧ g.user_id = demoKeyedState.user_id ∧
      g.content = "new" ∧ g.importance = 5 ∧
      g.access_count = demoK1Fact.access_count + 2 ∧
      ([demoOtherFact] ++ g :: []).length = demoKeyedState.long_term.length ∧
      ([demoOtherFact] ++ g :: []).countP
        (fun m => decide (m.key = "k1" ∧ m.user_id = demoKeyedState.user_id)) = 1 :=
  C7_upsert_sequence demoConfig "k1" [(5, "mid", 4)] (6, "new", 5) demoKeyedState
    [demoOtherFact] [] demoK1Fact rfl rfl rfl (by decide) (by decide)

/-! ## C9 — classifier fails safe -/

/-- `REACTIONS.get` misses every tag that is not a key of the table. -/
theorem reactionsGet_eq_none_of_not_mem (s : String)
    (h : ∀ e : String, (s, e) ∉ ResponseClassifier.REACTIONS) :
    ResponseClassifier.reactionsGet s = none := by
  have hf : ResponseClassifier.REACTIONS.find? (fun p => p.1 = s) = none := by
    rw [List.find?_eq_none]
    intro p hp hps
    have hp1 : p.1 = s := by simpa using hps
    exact h p.2 (by rw [← hp1]; exact hp)
  unfold ResponseClassifier.reactionsGet
  rw [hf]
  rfl

/-- C9: (a) when the capability call fails, or its output yields no
extraction, or every extraction is falsy or not a dict (the `if not
result` and `except` branches of the source), `classify` returns a
decision with `action = "reply"` and no reaction; (b) whenever the
returned `reaction_type` is not a tag of the fixed closed `REACTIONS`
table — a non-string value or an unknown string — the decision carries no
reaction symbol; (c) conversely, any reaction symbol ever attached is a
value of the `REACTIONS` table. -/
theorem C9_classifier_fail_safe :
    (∀ cap : Option String,
       (cap = none ∨ ∃ text, cap = some text ∧
          ∀ j, ResponseClassifier._extract_json text.data = some j →
            (pyTruthy j = false ∨ ∀ kvs, j ≠ Json.obj kvs)) →
       (ResponseClassifier.classify cap).action = Json.str "reply" ∧
       (ResponseClassifier.classify cap).reaction = none) ∧
    (∀ (text : String) (kvs : List (String × Json)),
       ResponseClassifier._extract_json text.data = some (Json.obj kvs) →
       (∀ (s e : String),
          (jGet kvs "reaction_type").getD Json.null = Json.str s →
          (s, e) ∉ ResponseClassifier.REACTIONS) →
       (ResponseClassifier.classify (some text)).reaction = none) ∧
    (∀ (cap : Option String) (e : String),
       (ResponseClassifier.classify cap).reaction = some e →
       ∃ tag : String, (tag, e) ∈ ResponseClassifier.REACTIONS) := by
  refine ⟨?_, ?_, ?_⟩
  · rintro cap (rfl | ⟨text, rfl, hj⟩)
    · exact ⟨rfl, rfl⟩
    · unfold ResponseClassifier.classify
      dsimp only
      cases hext : ResponseClassifier._extract_json text.data with
      | none => exact ⟨rfl, rfl⟩
      | some j =>
        dsimp only
        rcases hj j hext with hf | hne
        · rw [if_pos (by simp [hf])]
          exact ⟨rfl, rfl⟩
        · by_cases ht : pyTruthy j
          · rw [if_neg (by simp [ht])]
            cases j with
            | obj kvs => exact absurd rfl (hne kvs)
            | null => exact ⟨rfl, rfl⟩
            | bool b => exact ⟨rfl, rfl⟩
            | num q => exact ⟨rfl, rfl⟩
            | str s => exact ⟨rfl, rfl⟩
            | arr xs => exact ⟨rfl, rfl⟩
          · have hfalse : pyTruthy j = false := by simpa using ht
            rw [if_pos (by simp [hfalse])]
            exact ⟨rfl, rfl⟩
  · intro text kvs hext hrt
    unfold ResponseClassifier.classify
    dsimp only
    rw [hext]
    dsimp only
    by_cases ht : pyTruthy (Json.obj kvs)
    · rw [if_neg (by simp [ht])]
      by_cases htr : pyTruthy ((jGet kvs "reaction_type").getD Json.null)
      · rw [if_neg (by simp [htr])]
        cases hrtv : (jGet kvs "reaction_type").getD Json.null with
        | str s =>
          show ResponseClassifier.reactionsGet s = none
          exact reactionsGet_eq_none_of_not_mem s (fun e => hrt s e hrtv)
        | null => rfl
        | bool b => rfl
        | num q => rfl
        | arr xs => rfl
        | obj k2 => rfl
      · have hfalse : pyTruthy ((jGet kvs "reaction_type").getD Json.null) = false := by
          simpa using htr
        rw [if_pos (by simp [hfalse])]
    · have hfalse : pyTruthy (Json.obj kvs) = false := by simpa using ht
      rw [if_pos (by simp [hfalse])]
  · intro cap e h
    cases cap with
    | none => simp [ResponseClassifier.classify] at h
    | some text =>
      unfold ResponseClassifier.classify at h
      dsimp only at h
      cases hext : ResponseClassifier._extract_json text.data with
      | none => rw [hext] at h; simp at h
      | some j =>
        rw [hext] at h
        dsimp only at h
        by_cases ht : pyTruthy j
        · rw [if_neg (by simp [ht])] at h
          cases j with
          | obj kvs =>
            dsimp only at h
            by_cases htr : pyTruthy ((jGet kvs "reaction_type").getD Json.null)
            · rw [if_neg (by simp [htr])] at h
              cases hrt : (jGet kvs "reaction_type").getD Json.null with
              | str s =>
                rw [hrt] at h
                simp only [] at h
                have hs : ResponseClassifier.reactionsGet s = some e := h
                unfold ResponseClassifier.reactionsGet at hs
                obtain ⟨p, hfind, hpe⟩ := Option.map_eq_some'.mp hs
                refine ⟨p.1, ?_⟩
                rw [← hpe]
                exact List.mem_of_find?_eq_some hfind
              | null => rw [hrt] at h; simp at h
              | bool b => rw [hrt] at h; simp at h
              | num q => rw [hrt] at h; simp at h
              | arr xs => rw [hrt] at h; simp at h
              | obj kvs2 => rw [hrt] at h; simp at h
            · rw [if_pos (by simp [htr])] at h
              simp at h
          | null => simp at h
          | bool b => simp at h
          | num q => simp at h
          | str s => simp at h
          | arr xs => simp at h
        · rw [if_pos (by simp [ht])] at h
          simp at h

/-- A capability output whose only JSON is a fenced array: extraction
succeeds with a truthy non-dict value, which lands in the `except`
branch. -/
def c9FencedArr : String :=
  String.mk ([btChar, btChar, btChar] ++ "[true, false]".data ++ [btChar, btChar, btChar])

/-- A capability output carrying an unknown reaction tag. -/
def c9WaveText : String := "\x7b\"action\": \"react\", \"reaction_type\": \"wave\"\x7d"

/-- Witness for `C9_classifier_fail_safe`: a failed capability call, an
output with no JSON at all, an empty (falsy) dict, and a fenced non-dict
array all yield a reply with no reaction; and an unknown reaction tag
attaches no symbol. -/
theorem C9_classifier_fail_safe_witness :
    ((ResponseClassifier.classify none).action = Json.str "reply" ∧
     (ResponseClassifier.classify none).reaction = none) ∧
    ((ResponseClassifier.classify (some "hello there")).action = Json.str "reply" ∧
     (ResponseClassifier.classify (some "hello there")).reaction = none) ∧
    ((ResponseClassifier.classify (some "\x7b\x7d")).action = Json.str "reply" ∧
     (ResponseClassifier.classify (some "\x7b\x7d")).reaction = none) ∧
    ((ResponseClassifier.classify (some c9FencedArr)).action = Json.str "reply" ∧
     (ResponseClassifier.classify (some c9FencedArr)).reaction = none) ∧
    (ResponseClassifier.classify (some c9WaveText)).reaction = none := by
  refine ⟨C9_classifier_fail_safe.1 none (Or.inl rfl),
    C9_classifier_fail_safe.1 (some "hello there") (Or.inr ⟨"hello there", rfl, ?_⟩),
    C9_classifier_fail_safe.1 (some "\x7b\x7d") (Or.inr ⟨"\x7b\x7d", rfl, ?_⟩),
    C9_classifier_fail_safe.1 (some c9FencedArr) (Or.inr ⟨c9FencedArr, rfl, ?_⟩),
    C9_classifier_fail_safe.2.1 c9WaveText
      [("action", Json.str "react"), ("reaction_type", Json.str "wave")] rfl ?_⟩
  · intro j hj
    rw [show ResponseClassifier._extract_json ("hello there" : String).data = none
        from rfl] at hj
    exact Option.noConfusion hj
  · intro j hj
    rw [show ResponseClassifier._extract_json (("\x7b\x7d" : String)).data
        = some (Json.obj []) from rfl] at hj
    cases hj
    exact Or.inl rfl
  · intro j hj
    rw [show ResponseClassifier._extract_json c9FencedArr.data
        = some (Json.arr [Json.bool true, Json.bool false]) from rfl] at hj
    cases hj
    exact Or.inr (fun kvs hk => Json.noConfusion hk)
  · intro s e hs
    rw [show (jGet [("action", Json.str "react"), ("reaction_type", Json.str "wave")]
        "reaction_type").getD Json.null = Json.str "wave" from rfl] at hs
    injection hs with hsw
    subst hsw
    intro hmem
    have hall : ∀ p ∈ ResponseClassifier.REACTIONS, p.1 ≠ "wave" := by decide
    exact hall _ hmem rfl

/-! ## C2 — findShareable frame effects -/

theorem foldl_preserve {α β : Type} (P : β → Prop) (f : β → α → β)
    (l : List α) (init : β) (hstep : ∀ b a, P b → P (f b a)) (hinit : P init) :
    P (l.foldl f init) := by
  induction l generalizing init with
  | nil => exact hinit
  | cons x xs ih => exact ih _ (hstep _ _ hinit)

theorem selectBest_below (thresh : ℚ)
    (evalScore : InformationGatherer.Article → ℚ)
    (h : ∀ a, evalScore a < thresh) :
    ∀ (arts : List InformationGatherer.Article)
      (acc : Option InformationGatherer.Article × ℚ), acc.1 = none →
      (InformationGatherer.selectBest thresh evalScore arts acc).1 = none := by
  intro arts
  induction arts with
  | nil => intro acc hacc; exact hacc
  | cons a rest ih =>
    intro acc hacc
    unfold InformationGatherer.selectBest
    rw [if_neg]
    · exact ih acc hacc
    · rintro ⟨_, hle⟩
      exact absurd hle (not_le.mpr (h a))

theorem search_for_user_frame (st : InformationGatherer.GathererState)
    (uid : String) (interests : List String)
    (searchO : String → List InformationGatherer.SearchResult) (now : Nat) :
    (InformationGatherer.search_for_user st uid interests searchO now).2.daily_shares
      = st.daily_shares ∧
    (InformationGatherer.search_for_user st uid interests searchO now).2.last_share_reset
      = st.last_share_reset := by
  unfold InformationGatherer.search_for_user
  by_cases hi : interests.isEmpty
  · simp [hi]
  · rw [if_neg (by simp [hi])]
    refine foldl_preserve
      (fun acc : List InformationGatherer.Article × InformationGatherer.GathererState =>
        acc.2.daily_shares = st.daily_shares ∧ acc.2.last_share_reset = st.last_share_reset)
      _ _ _ ?_ ⟨rfl, rfl⟩
    intro b interest hb
    refine foldl_preserve
      (fun acc : List InformationGatherer.Article × InformationGatherer.GathererState =>
        acc.2.daily_shares = st.daily_shares ∧ acc.2.last_share_reset = st.last_share_reset)
      _ _ _ ?_ hb
    intro b2 r hb2
    by_cases hm : r.url ∈ b2.2.seen_urls uid
    · simp only [if_pos hm]
      exact hb2
    · simp only [if_neg hm]
      exact hb2

/-- The seen-URL set of the user after one `search_for_user` pass is
exactly the set before, extended by the URLs of the newly discovered
articles (already-seen URLs are filtered and add nothing). -/
theorem search_for_user_seen (st : InformationGatherer.GathererState)
    (uid : String) (interests : List String)
    (searchO : String → List InformationGatherer.SearchResult) (now : Nat) :
    (InformationGatherer.search_for_user st uid interests searchO now).2.seen_urls uid
      = st.seen_urls uid
        ++ (InformationGatherer.search_for_user st uid interests searchO now).1.map
            (fun a => a.url) := by
  unfold InformationGatherer.search_for_user
  by_cases hi : interests.isEmpty
  · simp [hi]
  · rw [if_neg (by simp [hi])]
    refine foldl_preserve
      (fun acc : List InformationGatherer.Article × InformationGatherer.GathererState =>
        acc.2.seen_urls uid = st.seen_urls uid ++ acc.1.map (fun a => a.url))
      _ _ _ ?_ (by simp)
    intro b interest hb
    refine foldl_preserve
      (fun acc : List InformationGatherer.Article × InformationGatherer.GathererState =>
        acc.2.seen_urls uid = st.seen_urls uid ++ acc.1.map (fun a => a.url))
      _ _ _ ?_ hb
    intro b2 r hb2
    by_cases hm : r.url ∈ b2.2.seen_urls uid
    · simp only [if_pos hm]
      exact hb2
    · simp only [if_neg hm]
      simp [InformationGatherer.upd, hb2, InformationGatherer.mkArticle]

theorem can_share_today_frame (cfg : Config)
    (st : InformationGatherer.GathererState) (uid : String) (today : Nat) :
    (InformationGatherer._can_share_today cfg st uid today).2.daily_shares uid
      ≤ st.daily_shares uid ∧
    (InformationGatherer._can_share_today cfg st uid today).2.seen_urls
      = st.seen_urls := by
  unfold InformationGatherer._can_share_today
  cases hl : st.last_share_reset uid with
  | some d =>
    by_cases hd : d < today
    · simp [hd, InformationGatherer.upd]
    · simp [hd]
  | none => simp [InformationGatherer.upd]

/-- C2, counterexample: a search pass that discovers one candidate whose
relevance score (2) is below the share threshold (3) returns nothing — but
the user's seen-URL set has still grown by the discovered URL, so the
claim that the seen-set is unchanged on a no-qualifying-candidate call is
false. -/
theorem C2_counterexample_seen_urls_grow :
    (InformationGatherer.find_shareable_article demoConfig
      ⟨fun _ => [], fun _ => 0, fun _ => none⟩ "u" ["ai"]
      (fun q => if q = "ai" then [⟨"t1", "u1", "d1", "h1", none⟩] else [])
      (fun _ => 2) (fun _ => "msg") 0 5).1 = none ∧
    (InformationGatherer.find_shareable_article demoConfig
      ⟨fun _ => [], fun _ => 0, fun _ => none⟩ "u" ["ai"]
      (fun q => if q = "ai" then [⟨"t1", "u1", "d1", "h1", none⟩] else [])
      (fun _ => 2) (fun _ => "msg") 0 5).2.seen_urls "u" = ["u1"] ∧
    (⟨fun _ => [], fun _ => 0, fun _ => none⟩ :
      InformationGatherer.GathererState).seen_urls "u" = [] ∧
    ((InformationGatherer.find_shareable_article demoConfig
      ⟨fun _ => [], fun _ => 0, fun _ => none⟩ "u" ["ai"]
      (fun q => if q = "ai" then [⟨"t1", "u1", "d1", "h1", none⟩] else [])
      (fun _ => 2) (fun _ => "msg") 0 5).2.seen_urls "u").length = 1 :=
  ⟨rfl, rfl, rfl, rfl⟩

/-- C2, amended: when no discovered candidate reaches the share threshold,
`find_shareable_article` returns nothing and never increments the user's
daily share counter (the stored count can only stay or be lazily reset to
0 on a date change; it increments only on a successfully rendered share).
The user's seen-URL set ends exactly as it began extended by the URLs of
the candidates newly discovered by that call's search pass — so it is
unchanged whenever the search discovers no new candidate (in particular
when every returned URL was already seen, or when the quota check already
failed), and it grows by every newly discovered URL even when the
candidate is evaluated-but-unqualified. -/
theorem C2_no_qualifier_frame (cfg : Config)
    (st : InformationGatherer.GathererState) (uid : String)
    (interests : List String)
    (searchO : String → List InformationGatherer.SearchResult)
    (evalScore : InformationGatherer.Article → ℚ)
    (renderMsg : InformationGatherer.Article → String) (today now : Nat)
    (h : ∀ a, evalScore a < cfg.INFO_SHARE_MOTIVATION_THRESHOLD) :
    (InformationGatherer.find_shareable_article cfg st uid interests searchO
        evalScore renderMsg today now).1 = none ∧
    (InformationGatherer.find_shareable_article cfg st uid interests searchO
        evalScore renderMsg today now).2.daily_shares uid ≤ st.daily_shares uid ∧
    ((InformationGatherer._can_share_today cfg st uid today).1 = true →
       (InformationGatherer.find_shareable_article cfg st uid interests searchO
          evalScore renderMsg today now).2.seen_urls uid
         = st.seen_urls uid
           ++ (InformationGatherer.search_for_user
                (InformationGatherer._can_share_today cfg st uid today).2 uid interests
                searchO now).1.map (fun a => a.url)) ∧
    ((InformationGatherer._can_share_today cfg st uid today).1 = false →
       (InformationGatherer.find_shareable_article cfg st uid interests searchO
          evalScore renderMsg today now).2.seen_urls uid = st.seen_urls uid) ∧
    ((InformationGatherer.search_for_user
        (InformationGatherer._can_share_today cfg st uid today).2 uid interests
        searchO now).1 = [] →
       (InformationGatherer.find_shareable_article cfg st uid interests searchO
          evalScore renderMsg today now).2.seen_urls uid = st.seen_urls uid) := by
  have hfr := can_share_today_frame cfg st uid today
  have hsw := search_for_user_seen
    (InformationGatherer._can_share_today cfg st uid today).2 uid interests searchO now
  unfold InformationGatherer.find_shareable_article
  rcases hq : InformationGatherer._can_share_today cfg st uid today with ⟨ok, st1⟩
  rw [hq] at hfr hsw
  dsimp only at hsw
  cases ok with
  | false =>
    have hs1 : st1.seen_urls = st.seen_urls := hfr.2
    refine ⟨rfl, hfr.1, ?_, ?_, ?_⟩
    · intro hc
      exact absurd hc (by simp)
    · intro _
      show st1.seen_urls uid = st.seen_urls uid
      rw [hs1]
    · intro _
      show st1.seen_urls uid = st.seen_urls uid
      rw [hs1]
  | true =>
    dsimp only
    have hfr2 := search_for_user_frame st1 uid interests searchO now
    rcases hsr : InformationGatherer.search_for_user st1 uid interests searchO now
      with ⟨arts, st2⟩
    rw [hsr] at hfr2 hsw
    dsimp only at hfr2 hsw
    have hdle : st2.daily_shares uid ≤ st.daily_shares uid := by
      rw [hfr2.1]
      exact hfr.1
    have hs1 : st1.seen_urls = st.seen_urls := hfr.2
    have h3 : st2.seen_urls uid = st.seen_urls uid ++ arts.map (fun a => a.url) := by
      rw [hsw, hs1]
    have h5 : arts = [] → st2.seen_urls uid = st.seen_urls uid := by
      intro he
      rw [h3, he]
      simp
    have hsel := selectBest_below cfg.INFO_SHARE_MOTIVATION_THRESHOLD evalScore h arts
      (none, 0) rfl
    cases harts : arts.isEmpty with
    | true =>
      exact ⟨rfl, hdle, fun _ => h3, fun hc => absurd hc (by simp), h5⟩
    | false =>
      rw [hsel]
      exact ⟨rfl, hdle, fun _ => h3, fun hc => absurd hc (by simp), h5⟩

/-- Witness for `C2_no_qualifier_frame`: the concrete low-scoring search
pass of the counterexample, checked against the amended statement — the
call returns nothing, the counter is not incremented, and the seen-URL
set grows by exactly the one discovered URL. -/
theorem C2_no_qualifier_frame_witness :
    (InformationGatherer.find_shareable_article demoConfig
      ⟨fun _ => [], fun _ => 0, fun _ => none⟩ "u" ["ai"]
      (fun q => if q = "ai" then [⟨"t1", "u1", "d1", "h1", none⟩] else [])
      (fun _ => 2) (fun _ => "msg") 0 5).1 = none ∧
    (InformationGatherer.find_shareable_article demoConfig
      ⟨fun _ => [], fun _ => 0, fun _ => none⟩ "u" ["ai"]
      (fun q => if q = "ai" then [⟨"t1", "u1", "d1", "h1", none⟩] else [])
      (fun _ => 2) (fun _ => "msg") 0 5).2.daily_shares "u"
      ≤ (⟨fun _ => [], fun _ => 0, fun _ => none⟩ :
          InformationGatherer.GathererState).daily_shares "u" ∧
    (InformationGatherer.find_shareable_article demoConfig
      ⟨fun _ => [], fun _ => 0, fun _ => none⟩ "u" ["ai"]
      (fun q => if q = "ai" then [⟨"t1", "u1", "d1", "h1", none⟩] else [])
      (fun _ => 2) (fun _ => "msg") 0 5).2.seen_urls "u"
      = (⟨fun _ => [], fun _ => 0, fun _ => none⟩ :
          InformationGatherer.GathererState).seen_urls "u"
        ++ (InformationGatherer.search_for_user
            (InformationGatherer._can_share_today demoConfig
              ⟨fun _ => [], fun _ => 0, fun _ => none⟩ "u" 0).2 "u" ["ai"]
            (fun q => if q = "ai" then [⟨"t1", "u1", "d1", "h1", none⟩] else [])
            5).1.map (fun a => a.url) :=
  have hthm := C2_no_qualifier_frame demoConfig
    ⟨fun _ => [], fun _ => 0, fun _ => none⟩ "u" ["ai"]
    (fun q => if q = "ai" then [⟨"t1", "u1", "d1", "h1", none⟩] else [])
    (fun _ => 2) (fun _ => "msg") 0 5 (fun a => by norm_num [demoConfig])
  ⟨hthm.1, hthm.2.1, hthm.2.2.1 rfl⟩
